import Mathlib

/-!
Shallow embedding of the wm8731-alt command-builder crate.

The crate packs each codec register as one 16-bit integer
`address << 9 | payload` and mutates it through field writers.  We model
`u16` values as `Nat` with explicit truncation `% 65536` wherever the Rust
code can overflow 16 bits, `u8` parameters as `Nat` truncated with `% 256`,
and bitwise `!x` on `u16` as `65535 ^^^ x`.  All writers are total
functions, mirroring the code, which masks wide inputs instead of rejecting
them and has no panic path.
-/

namespace Wm8731

/-- Model of bitwise not on a 16-bit value (`!x` on Rust `u16`). -/
def not16 (x : Nat) : Nat := 65535 ^^^ x

/-- Model of truncation to 16 bits (the implicit wrapping of Rust `u16`
shifts). -/
def u16 (x : Nat) : Nat := x % 65536

/-- Model of `impl_bits!` from `src/macros.rs`: writer of a field of `len`
bits at offset `shift`, computing
`data & !mask | (value as u16) << shift & mask` with
`mask = !((!0) << len) << shift` (all in `u16`).  The `value % 256` models
the `u8` parameter type. -/
def bits (len shift data value : Nat) : Nat :=
  let mask := u16 (not16 (u16 (65535 <<< len)) <<< shift)
  data &&& not16 mask ||| u16 ((value % 256) <<< shift) &&& mask

/-- Model of `impl_bit!` from `src/macros.rs`:
`data & !(1 << pos) | (value as u16) << pos`. -/
def bit (pos data : Nat) (value : Bool) : Nat :=
  data &&& not16 (1 <<< pos) ||| (cond value 1 0) <<< pos

/-- Model of `impl_set_bit!` / `impl_enable!` from `src/macros.rs`:
`data |= 1 << pos`. -/
def set_bit (pos data : Nat) : Nat := data ||| 1 <<< pos

/-- Model of `impl_clear_bit!` / `impl_disable!` from `src/macros.rs`:
`data &= !(1 << pos)`. -/
def clear_bit (pos data : Nat) : Nat := data &&& not16 (1 <<< pos)

/-- Model of `SampleRate::bits` from `src/sampling.rs` and
`src/command/sampling.rs` (identical in both snapshots):
`mask = !((!0) << 6)` and `data & !mask | (value as u16) << 2 & mask`. -/
def sampleRateBits (data value : Nat) : Nat :=
  let mask := not16 (u16 (65535 <<< 6))
  data &&& not16 mask ||| u16 ((value % 256) <<< 2) &&& mask

/-- Model of `Sr::bits` from both sampling snapshots: a 4-bit field at
offset 2, `mask = !((!0) << 4) << 2`. -/
def srBits (data value : Nat) : Nat := bits 4 2 data value

/-- Model of `Hpvol::db` from `src/headphone_out.rs`:
`mask = !((!0) << 7); data & !mask | volume.into_raw() as u16`. -/
def hpvol_db (data raw : Nat) : Nat :=
  data &&& not16 (not16 (u16 (65535 <<< 7))) ||| raw % 256

/-- Model of `Sideatt::db` from `src/command/analogue_audio_path.rs`:
`mask = !((!0) << 2) << 6; data & !mask | volume.into_raw() as u16`. -/
def sideatt_db (data raw : Nat) : Nat :=
  data &&& not16 (u16 (not16 (u16 (65535 <<< 2)) <<< 6)) ||| raw % 256

/-- Model of `ActiveControl::active` from `src/active_control.rs`:
`data |= 0b1`. -/
def active_op (data : Nat) : Nat := data ||| 0b1

/-- Model of `ActiveControl::inactive` from `src/active_control.rs`:
`data &= !0b1`. -/
def inactive_op (data : Nat) : Nat := data &&& not16 0b1

/-! Reset/default data of every register builder, as written in each
builder's `new` in the source. -/

/-- Data of `LeftLineIn::new` (`src/line_in.rs`): `0b0_1001_0111`. -/
def left_line_in : Nat := 0b010010111

/-- Data of `RightLineIn::new` (`src/line_in.rs`):
`0x1 << 9 | 0b0_1001_0111`. -/
def right_line_in : Nat := 0x1 <<< 9 ||| 0b010010111

/-- Data of `LeftHeadphoneOut::new` (`src/headphone_out.rs`):
`0x2 << 9 | 0b0_0111_1001`. -/
def left_headphone_out : Nat := 0x2 <<< 9 ||| 0b001111001

/-- Data of `RightHeadphoneOut::new` (`src/headphone_out.rs`):
`0x3 << 9 | 0b0_0111_1001`. -/
def right_headphone_out : Nat := 0x3 <<< 9 ||| 0b001111001

/-- Data of `AnalogueAudioPath::new` (both snapshots):
`0b100 << 9 | 0b1010`. -/
def analogue_audio_path : Nat := 0b100 <<< 9 ||| 0b1010

/-- Data of `DigitalAudioPath::new` (`src/digital_audio_path.rs`):
`0b101 << 9 | 0b1000`. -/
def digital_audio_path : Nat := 0b101 <<< 9 ||| 0b1000

/-- Data of `PowerDown::new` (`src/power_down.rs`):
`0b110 << 9 | 0b1001_1111`. -/
def power_down : Nat := 0b110 <<< 9 ||| 0b10011111

/-- Data of `DigitalAudioInterface::new` (`src/digital_audio_interface.rs`):
`0b111 << 9 | 0b1010`. -/
def digital_audio_interface : Nat := 0b111 <<< 9 ||| 0b1010

/-- Data of `Sampling::new` (`src/command/sampling.rs`), reached through
the raw constructor `sampling()`: `0b1000 << 9 | 0b0000_0000`. -/
def sampling_default : Nat := 0b1000 <<< 9 ||| 0b00000000

/-- Data of `ActiveControl::new` (`src/active_control.rs`): `0b1001 << 9`. -/
def active_control : Nat := 0b1001 <<< 9

/-- Data of `Reset::new` (`src/lib.rs` and `src/command/mod.rs`):
`0b110 << 9 | 0b1001_1111`. -/
def reset_data : Nat := 0b110 <<< 9 ||| 0b10011111

/-- Data of `sampling_with_mclk` / `sampling_command_builder_mclk`:
`0b1000 << 9`. -/
def sampling_with_mclk : Nat := 0b1000 <<< 9

/-- Model of `into_command` and of the `Command -> Frame` conversion: the
16-bit data passes through unchanged (`Command { data: self.data }`,
`Frame { data: cmd.data }`). -/
def into_command (data : Nat) : Nat := data

/-- Model of `From<Frame> for [u8; 2]` (`src/lib.rs`, `src/interface.rs`):
`frame.data.to_be_bytes()`, the big-endian bytes `[(d >> 8) as u8, d as u8]`. -/
def frame_to_be_bytes (data : Nat) : List Nat := [(data >>> 8) % 256, data % 256]

/-- Model of `From<Frame> for [u16; 1]`: `[frame.data]`. -/
def frame_to_words (data : Nat) : List Nat := [data]

/-- Model of `From<Frame> for u16`: `frame.data`. -/
def frame_to_u16 (data : Nat) : Nat := data

/-- Shape shared by every register constructor and thus by every command's
data: `address << 9 | payload`. -/
def command_data (addr payload : Nat) : Nat := addr <<< 9 ||| payload

/-! Named sample-rate selectors of the master-clock style (identical codes
in both snapshots). -/

/-- Selector `SampleRate<(Mclk12M288, _)>::adc48k_dac48k`: `bits(0b000000)`. -/
def mclk12M288_adc48k_dac48k (d : Nat) : Nat := sampleRateBits d 0b000000

/-- Selector `SampleRate<(Mclk12M, _)>::adc48k_dac48k`: `bits(0b000001)`. -/
def mclk12M_adc48k_dac48k (d : Nat) : Nat := sampleRateBits d 0b000001

/-- Selector `SampleRate<(Mclk11M2896, _)>::adc44k1_dac44k1`:
`bits(0b100000)`. -/
def mclk11M2896_adc44k1_dac44k1 (d : Nat) : Nat := sampleRateBits d 0b100000

/-! Safe `sr_0bxxxx` writers offered by the `Sr` field writer, per tag
(the same three lists appear in `src/sampling.rs` and
`src/command/sampling.rs`). -/

/-- Codes of the `sr_0bxxxx` methods on `Sr<(Normal, BOSR, SR)>`. -/
def sr_codes_normal : List Nat :=
  [0b0000, 0b0001, 0b0010, 0b0011, 0b0110, 0b0111,
   0b1000, 0b1001, 0b1010, 0b1011, 0b1111]

/-- Codes of the `sr_0bxxxx` methods on `Sr<(Usb, BosrClear, SR)>`. -/
def sr_codes_usb_bosr_clear : List Nat :=
  [0b0000, 0b0001, 0b0010, 0b0011, 0b0110, 0b0111]

/-- Codes of the `sr_0bxxxx` methods on `Sr<(Usb, BosrSet, SR)>`. -/
def sr_codes_usb_bosr_set : List Nat :=
  [0b1000, 0b1001, 0b1010, 0b1011, 0b1111]

/-- Writer `Dacsel::select` in the `src/analogue_audio_path.rs` snapshot:
`impl_set_bit!(select, AnalogueAudioPath, 2)`. -/
def dacsel_select_v1 (d : Nat) : Nat := set_bit 2 d

/-- Writer `Dacsel::select` in the `src/command/analogue_audio_path.rs`
snapshot: `impl_set_bit!(select, AnalogueAudioPath, 4)`. -/
def dacsel_select_v2 (d : Nat) : Nat := set_bit 4 d

/-- Formula the spec claims for a bit-range field write of length `len` at
offset `shift`: `(old & !(mask(L) << S)) | ((v & mask(L)) << S)` with
`mask(L) = 2^L - 1`.  Stated from the spec's words, for comparison with
`bits`. -/
def bits_spec (len shift data value : Nat) : Nat :=
  data &&& not16 ((2 ^ len - 1) <<< shift) ||| (value &&& (2 ^ len - 1)) <<< shift

/-! State machine of the raw sampling builder of `src/command/sampling.rs`.

The phantom tag `(MODE, BOSR, SR)` of `Sampling` is modelled by three
fields: `usb` (`Normal`/`Usb`), `bosr` (`BosrClear`/`BosrSet`) and
`srValid` (`SrInvalid`/`SrValid`).  Every writer consumes the builder and
returns a re-tagged builder; which writers the Rust type system offers on a
given tag is captured by `availOp`. -/

/-- A `Sampling<(MODE, BOSR, SR)>` builder value: the packed 16-bit data
plus the three facets of its phantom tag. -/
structure SamplingState where
  data : Nat
  usb : Bool
  bosr : Bool
  srValid : Bool
deriving DecidableEq

/-- One builder operation of `src/command/sampling.rs`: the `UsbNormal`
writer (`clear_bit`/`normal` = `false`, `set_bit`/`usb` = `true`), the
`Bosr` writer, a safe `sr_0bxxxx` writer carrying its code, and the
always-available `Clkidiv2`/`Clkodiv2` toggle writers (represented by their
`bit` method, which subsumes `set_bit`/`clear_bit`). -/
inductive SamplingOp where
  | usbNormalW (b : Bool)
  | bosrW (b : Bool)
  | srW (code : Nat)
  | clkidiv2W (b : Bool)
  | clkodiv2W (b : Bool)
deriving DecidableEq

/-- Safe sr codes offered for a `(MODE, BOSR)` tag pair: 11 codes under
`Normal` (any `BOSR`), 6 under `(Usb, BosrClear)`, 5 under `(Usb, BosrSet)`. -/
def srCodesFor (usb bosr : Bool) : List Nat :=
  match usb, bosr with
  | false, _ => sr_codes_normal
  | true, false => sr_codes_usb_bosr_clear
  | true, true => sr_codes_usb_bosr_set

/-- Whether the Rust type system offers an operation on a given tag:
`usb_normal`, `bosr`, `clkidiv2` and `clkodiv2` are available on every
`(MODE, BOSR, SR)` tag, and a safe `sr_0bxxxx` method exists exactly when
its code is in the impl block for the current `(MODE, BOSR)` pair. -/
def availOp (s : SamplingState) : SamplingOp → Bool
  | .srW code => (srCodesFor s.usb s.bosr).contains code
  | _ => true

/-- Effect of one operation: data mutation and re-tagging, exactly as in
the corresponding writer method (`UsbNormal` and `Bosr` return `SrInvalid`,
`Sr` returns `SrValid`, the clock-divider toggles keep the tag). -/
def stepOp (s : SamplingState) : SamplingOp → SamplingState
  | .usbNormalW false => ⟨clear_bit 0 s.data, false, s.bosr, false⟩
  | .usbNormalW true => ⟨set_bit 0 s.data, true, s.bosr, false⟩
  | .bosrW false => ⟨clear_bit 1 s.data, s.usb, false, false⟩
  | .bosrW true => ⟨set_bit 1 s.data, s.usb, true, false⟩
  | .srW code => ⟨srBits s.data code, s.usb, s.bosr, true⟩
  | .clkidiv2W b => ⟨bit 6 s.data b, s.usb, s.bosr, s.srValid⟩
  | .clkodiv2W b => ⟨bit 7 s.data b, s.usb, s.bosr, s.srValid⟩

/-- Run a chain of builder operations; `none` when the Rust type system
would reject the chain (an operation not offered on the current tag). -/
def runOps : SamplingState → List SamplingOp → Option SamplingState
  | s, [] => some s
  | s, op :: rest => if availOp s op then runOps (stepOp s op) rest else none

/-- State produced by the raw constructor `sampling()` of
`src/command/sampling.rs`: data `0b1000 << 9 | 0b0000_0000`, tag
`(Normal, BosrClear, SrValid)`. -/
def samplingInit : SamplingState := ⟨sampling_default, false, false, true⟩

/-- Availability of `into_command`: offered exactly on tags whose third
facet is `SrValid` (`impl<MODE, BOSR> Sampling<(MODE, BOSR, SrValid)>`). -/
def into_command_avail (s : SamplingState) : Bool := s.srValid

/-- Field-writing operations in the sense of the sampling state machine:
the `UsbNormal`, `Bosr` and `Sr` writers (the clock-divider toggles do not
participate in the ordering constraint). -/
def isFieldW : SamplingOp → Bool
  | .usbNormalW _ => true
  | .bosrW _ => true
  | .srW _ => true
  | _ => false

/-- Whether an operation is a sample-rate-setting operation. -/
def isSrW : SamplingOp → Bool
  | .srW _ => true
  | _ => false

/-- Most recent mode/ratio/sample-rate write of a chain, if any. -/
def lastFieldW (ops : List SamplingOp) : Option SamplingOp :=
  ops.foldl (fun acc op => if isFieldW op then some op else acc) none

/-- Validity tracking along a chain: `usb_normal` and `bosr` writes force
invalidity, `sr` writes force validity, other operations keep it. -/
def validAfter (b : Bool) : List SamplingOp → Bool
  | [] => b
  | op :: rest =>
      validAfter (if isSrW op then true else if isFieldW op then false else b) rest

/-! Helper lemmas. -/

theorem not16_not16 (x : Nat) : not16 (not16 x) = x := by
  rw [not16, not16, ← Nat.xor_assoc, Nat.xor_self, Nat.zero_xor]

theorem testBit_bits (l s d v i : Nat) :
    ((bits l s d v).testBit i = true) ↔
      ((d.testBit i = true ∧ i < 16 ∧ ¬(s ≤ i ∧ i < s + l)) ∨
       (s ≤ i ∧ i < s + l ∧ i - s < 8 ∧ i < 16 ∧ v.testBit (i - s) = true)) := by
  simp only [bits, u16, not16,
    show (65535:Nat) = 2^16-1 by norm_num, show (65536:Nat) = 2^16 by norm_num,
    show (256:Nat) = 2^8 by norm_num,
    Nat.testBit_or, Nat.testBit_and, Nat.testBit_mod_two_pow,
    Nat.testBit_shiftLeft, Nat.testBit_xor, Nat.testBit_two_pow_sub_one]
  simp only [Bool.or_eq_true, Bool.and_eq_true, bne_iff_ne, ne_eq]
  simp only [← Bool.decide_and]
  simp only [decide_eq_decide, decide_eq_true_eq]
  by_cases hdb : d.testBit i = true <;> by_cases hvb : v.testBit (i - s) = true <;>
    simp [hdb, hvb] <;> omega

theorem testBit_bits_spec (l s d v i : Nat) (hls : s + l ≤ 16) :
    ((bits_spec l s d v).testBit i = true) ↔
      ((d.testBit i = true ∧ i < 16 ∧ ¬(s ≤ i ∧ i < s + l)) ∨
       (s ≤ i ∧ i < s + l ∧ v.testBit (i - s) = true)) := by
  simp only [bits_spec, not16,
    show (65535:Nat) = 2^16-1 by norm_num,
    Nat.testBit_or, Nat.testBit_and, Nat.testBit_shiftLeft, Nat.testBit_xor,
    Nat.testBit_two_pow_sub_one]
  simp only [Bool.or_eq_true, Bool.and_eq_true, bne_iff_ne, ne_eq]
  simp only [← Bool.decide_and]
  simp only [decide_eq_decide, decide_eq_true_eq]
  by_cases hdb : d.testBit i = true <;> by_cases hvb : v.testBit (i - s) = true <;>
    simp [hdb, hvb] <;> omega

theorem testBit_set_bit (p d i : Nat) :
    ((set_bit p d).testBit i = true) ↔ (d.testBit i = true ∨ i = p) := by
  simp only [set_bit, show (1:Nat) = 2^0 by norm_num,
    Nat.testBit_or, Nat.testBit_shiftLeft, Nat.testBit_two_pow]
  simp only [Bool.or_eq_true, Bool.and_eq_true, decide_eq_true_eq]
  by_cases hdb : d.testBit i = true <;> simp [hdb] <;> omega

theorem testBit_clear_bit (p d i : Nat) (hp : p ≤ 8) :
    ((clear_bit p d).testBit i = true) ↔ (d.testBit i = true ∧ i < 16 ∧ i ≠ p) := by
  simp only [clear_bit, not16, show (65535:Nat) = 2^16-1 by norm_num,
    Nat.testBit_and, Nat.testBit_xor, Nat.testBit_two_pow_sub_one]
  simp only [show (1:Nat) = 2^0 by norm_num, Nat.testBit_shiftLeft,
    Nat.testBit_two_pow]
  simp only [Bool.and_eq_true, bne_iff_ne, ne_eq]
  try simp only [← Bool.decide_and]
  simp only [decide_eq_decide, decide_eq_true_eq]
  by_cases hdb : d.testBit i = true <;> simp [hdb] <;> omega

theorem testBit_bit (p d i : Nat) (b : Bool) (hp : p ≤ 8) :
    ((bit p d b).testBit i = true) ↔
      ((d.testBit i = true ∧ i < 16 ∧ i ≠ p) ∨ (b = true ∧ i = p)) := by
  cases b <;>
  · simp only [bit, not16, cond, show (65535:Nat) = 2^16-1 by norm_num,
      Nat.testBit_or, Nat.testBit_and, Nat.testBit_xor, Nat.testBit_two_pow_sub_one]
    simp only [show (1:Nat) = 2^0 by norm_num, Nat.testBit_shiftLeft,
      Nat.testBit_two_pow, Nat.zero_shiftLeft, Nat.zero_testBit]
    simp only [Bool.or_eq_true, Bool.and_eq_true, bne_iff_ne, ne_eq,
      Bool.or_false, Bool.and_false, Bool.false_and]
    try simp only [← Bool.decide_and]
    simp only [decide_eq_decide, decide_eq_true_eq]
    by_cases hdb : d.testBit i = true <;> simp [hdb] <;> omega

theorem testBit_sampleRateBits (d v i : Nat) :
    ((sampleRateBits d v).testBit i = true) ↔
      ((d.testBit i = true ∧ i < 16 ∧ ¬(i < 6)) ∨
       (2 ≤ i ∧ i < 6 ∧ v.testBit (i - 2) = true)) := by
  simp only [sampleRateBits]
  simp only [not16_not16]
  simp only [u16, not16,
    show (65535:Nat) = 2^16-1 by norm_num, show (65536:Nat) = 2^16 by norm_num,
    show (256:Nat) = 2^8 by norm_num,
    Nat.testBit_or, Nat.testBit_and, Nat.testBit_mod_two_pow,
    Nat.testBit_shiftLeft, Nat.testBit_xor, Nat.testBit_two_pow_sub_one]
  simp only [Bool.or_eq_true, Bool.and_eq_true, bne_iff_ne, ne_eq]
  try simp only [← Bool.decide_and]
  simp only [decide_eq_decide, decide_eq_true_eq]
  by_cases hdb : d.testBit i = true <;> by_cases hvb : v.testBit (i - 2) = true <;>
    simp [hdb, hvb] <;> omega

theorem testBit_hpvol_db (d raw i : Nat) :
    ((hpvol_db d raw).testBit i = true) ↔
      ((d.testBit i = true ∧ i < 16 ∧ ¬(i < 7)) ∨
       (i < 8 ∧ raw.testBit i = true)) := by
  simp only [hpvol_db]
  simp only [not16_not16]
  simp only [u16, not16,
    show (65535:Nat) = 2^16-1 by norm_num, show (65536:Nat) = 2^16 by norm_num,
    show (256:Nat) = 2^8 by norm_num,
    Nat.testBit_or, Nat.testBit_and, Nat.testBit_mod_two_pow,
    Nat.testBit_shiftLeft, Nat.testBit_xor, Nat.testBit_two_pow_sub_one]
  simp only [Bool.or_eq_true, Bool.and_eq_true, bne_iff_ne, ne_eq]
  try simp only [← Bool.decide_and]
  simp only [decide_eq_decide, decide_eq_true_eq]
  by_cases hdb : d.testBit i = true <;> by_cases hrb : raw.testBit i = true <;>
    simp [hdb, hrb] <;> omega

theorem testBit_sideatt_db (d raw i : Nat) :
    ((sideatt_db d raw).testBit i = true) ↔
      ((d.testBit i = true ∧ i < 16 ∧ ¬(6 ≤ i ∧ i < 8)) ∨
       (i < 8 ∧ raw.testBit i = true)) := by
  simp only [sideatt_db, u16, not16,
    show (65535:Nat) = 2^16-1 by norm_num, show (65536:Nat) = 2^16 by norm_num,
    show (256:Nat) = 2^8 by norm_num,
    Nat.testBit_or, Nat.testBit_and, Nat.testBit_mod_two_pow,
    Nat.testBit_shiftLeft, Nat.testBit_xor, Nat.testBit_two_pow_sub_one]
  simp only [Bool.or_eq_true, Bool.and_eq_true, bne_iff_ne, ne_eq]
  try simp only [← Bool.decide_and]
  simp only [decide_eq_decide, decide_eq_true_eq]
  by_cases hdb : d.testBit i = true <;> by_cases hrb : raw.testBit i = true <;>
    simp [hdb, hrb] <;> omega

theorem testBit_active_op (d i : Nat) :
    ((active_op d).testBit i = true) ↔ (d.testBit i = true ∨ i = 0) := by
  simp only [active_op, show (1:Nat) = 2^0 by norm_num,
    Nat.testBit_or, Nat.testBit_two_pow]
  simp only [Bool.or_eq_true, decide_eq_true_eq]
  by_cases hdb : d.testBit i = true <;> simp [hdb] <;> omega

theorem testBit_inactive_op (d i : Nat) :
    ((inactive_op d).testBit i = true) ↔ (d.testBit i = true ∧ i < 16 ∧ i ≠ 0) := by
  simp only [inactive_op, not16, show (65535:Nat) = 2^16-1 by norm_num,
    Nat.testBit_and, Nat.testBit_xor, Nat.testBit_two_pow_sub_one]
  simp only [show (1:Nat) = 2^0 by norm_num, Nat.testBit_two_pow]
  simp only [Bool.and_eq_true, bne_iff_ne, ne_eq]
  try simp only [← Bool.decide_and]
  simp only [decide_eq_decide, decide_eq_true_eq]
  by_cases hdb : d.testBit i = true <;> simp [hdb] <;> omega

theorem testBit_high_false {d : Nat} (hd : d < 65536) {i : Nat} (hi : 16 ≤ i) :
    d.testBit i = false := by
  apply Nat.testBit_lt_two_pow
  calc d < 65536 := hd
    _ = 2 ^ 16 := by norm_num
    _ ≤ 2 ^ i := Nat.pow_le_pow_right (by norm_num) hi

theorem shiftRight9_congr {x y : Nat} (h : ∀ i, 9 ≤ i → x.testBit i = y.testBit i) :
    x >>> 9 = y >>> 9 := by
  apply Nat.eq_of_testBit_eq
  intro j
  simp only [Nat.testBit_shiftRight]
  exact h (9 + j) (Nat.le_add_right 9 j)

theorem bits_testBit_high (l s d v : Nat) (hd : d < 65536) (hls : s + l ≤ 9)
    (i : Nat) (hi : 9 ≤ i) : (bits l s d v).testBit i = d.testBit i := by
  rw [Bool.eq_iff_iff, testBit_bits]
  constructor
  · rintro (⟨h1, _, _⟩ | ⟨_, h2, _⟩)
    · exact h1
    · omega
  · intro hdb
    rcases Nat.lt_or_ge i 16 with h16 | h16
    · exact Or.inl ⟨hdb, h16, by omega⟩
    · rw [testBit_high_false hd h16] at hdb
      simp at hdb

theorem bit_testBit_high (p d : Nat) (b : Bool) (hd : d < 65536) (hp : p ≤ 8)
    (i : Nat) (hi : 9 ≤ i) : (bit p d b).testBit i = d.testBit i := by
  rw [Bool.eq_iff_iff, testBit_bit p d i b hp]
  constructor
  · rintro (⟨h1, _, _⟩ | ⟨_, h2⟩)
    · exact h1
    · omega
  · intro hdb
    rcases Nat.lt_or_ge i 16 with h16 | h16
    · exact Or.inl ⟨hdb, h16, by omega⟩
    · rw [testBit_high_false hd h16] at hdb
      simp at hdb

theorem set_bit_testBit_high (p d : Nat) (hp : p ≤ 8)
    (i : Nat) (hi : 9 ≤ i) : (set_bit p d).testBit i = d.testBit i := by
  rw [Bool.eq_iff_iff, testBit_set_bit]
  constructor
  · rintro (h | h)
    · exact h
    · omega
  · exact Or.inl

theorem clear_bit_testBit_high (p d : Nat) (hd : d < 65536) (hp : p ≤ 8)
    (i : Nat) (hi : 9 ≤ i) : (clear_bit p d).testBit i = d.testBit i := by
  rw [Bool.eq_iff_iff, testBit_clear_bit p d i hp]
  constructor
  · exact fun h => h.1
  · intro hdb
    rcases Nat.lt_or_ge i 16 with h16 | h16
    · exact ⟨hdb, h16, by omega⟩
    · rw [testBit_high_false hd h16] at hdb
      simp at hdb

theorem sampleRateBits_testBit_high (d v : Nat) (hd : d < 65536)
    (i : Nat) (hi : 9 ≤ i) : (sampleRateBits d v).testBit i = d.testBit i := by
  rw [Bool.eq_iff_iff, testBit_sampleRateBits]
  constructor
  · rintro (⟨h1, _, _⟩ | ⟨_, h2, _⟩)
    · exact h1
    · omega
  · intro hdb
    rcases Nat.lt_or_ge i 16 with h16 | h16
    · exact Or.inl ⟨hdb, h16, by omega⟩
    · rw [testBit_high_false hd h16] at hdb
      simp at hdb

theorem hpvol_db_testBit_high (d raw : Nat) (hd : d < 65536)
    (i : Nat) (hi : 9 ≤ i) : (hpvol_db d raw).testBit i = d.testBit i := by
  rw [Bool.eq_iff_iff, testBit_hpvol_db]
  constructor
  · rintro (⟨h1, _, _⟩ | ⟨h2, _⟩)
    · exact h1
    · omega
  · intro hdb
    rcases Nat.lt_or_ge i 16 with h16 | h16
    · exact Or.inl ⟨hdb, h16, by omega⟩
    · rw [testBit_high_false hd h16] at hdb
      simp at hdb

theorem sideatt_db_testBit_high (d raw : Nat) (hd : d < 65536)
    (i : Nat) (hi : 9 ≤ i) : (sideatt_db d raw).testBit i = d.testBit i := by
  rw [Bool.eq_iff_iff, testBit_sideatt_db]
  constructor
  · rintro (⟨h1, _, _⟩ | ⟨h2, _⟩)
    · exact h1
    · omega
  · intro hdb
    rcases Nat.lt_or_ge i 16 with h16 | h16
    · exact Or.inl ⟨hdb, h16, by omega⟩
    · rw [testBit_high_false hd h16] at hdb
      simp at hdb

theorem active_op_testBit_high (d : Nat) (i : Nat) (hi : 9 ≤ i) :
    (active_op d).testBit i = d.testBit i := by
  rw [Bool.eq_iff_iff, testBit_active_op]
  constructor
  · rintro (h | h)
    · exact h
    · omega
  · exact Or.inl

theorem inactive_op_testBit_high (d : Nat) (hd : d < 65536) (i : Nat) (hi : 9 ≤ i) :
    (inactive_op d).testBit i = d.testBit i := by
  rw [Bool.eq_iff_iff, testBit_inactive_op]
  constructor
  · exact fun h => h.1
  · intro hdb
    rcases Nat.lt_or_ge i 16 with h16 | h16
    · exact ⟨hdb, h16, by omega⟩
    · rw [testBit_high_false hd h16] at hdb
      simp at hdb

theorem command_data_eq (addr payload : Nat) (hp : payload < 512) :
    command_data addr payload = 512 * addr + payload := by
  have hp2 : payload < 2 ^ 9 := lt_of_lt_of_eq hp (by norm_num)
  rw [command_data, Nat.shiftLeft_eq, Nat.mul_comm, ← Nat.mul_add_lt_is_or hp2 addr]

theorem runOps_srValid (ops : List SamplingOp) :
    ∀ s0 s : SamplingState, runOps s0 ops = some s →
      s.srValid = validAfter s0.srValid ops := by
  induction ops with
  | nil =>
      intro s0 s h
      simp only [runOps] at h
      cases h
      rfl
  | cons op rest ih =>
      intro s0 s h
      simp only [runOps] at h
      split at h
      · rw [ih _ _ h]
        have : (stepOp s0 op).srValid =
            (if isSrW op then true else if isFieldW op then false else s0.srValid) := by
          cases op with
          | usbNormalW b => cases b <;> rfl
          | bosrW b => cases b <;> rfl
          | srW code => rfl
          | clkidiv2W b => rfl
          | clkodiv2W b => rfl
        rw [validAfter, this]
      · exact absurd h (by simp)

theorem validAfter_foldl (ops : List SamplingOp) :
    ∀ (b : Bool) (acc : Option SamplingOp),
      validAfter (acc.elim b isSrW) ops =
        (ops.foldl (fun a op => if isFieldW op then some op else a) acc).elim b isSrW := by
  induction ops with
  | nil => intro b acc; rfl
  | cons op rest ih =>
      intro b acc
      rw [List.foldl_cons, validAfter, ← ih b (if isFieldW op then some op else acc)]
      congr 1
      cases op with
      | usbNormalW b2 => rfl
      | bosrW b2 => rfl
      | srW code => rfl
      | clkidiv2W b2 => rfl
      | clkodiv2W b2 => rfl

theorem validAfter_false_of_no_sr (ops : List SamplingOp)
    (h : ∀ op ∈ ops, isSrW op = false) : validAfter false ops = false := by
  induction ops with
  | nil => rfl
  | cons op rest ih =>
      rw [validAfter, h op (by simp)]
      have : (if isFieldW op then false else false) = false := by
        split <;> rfl
      rw [this]
      exact ih fun o ho => h o (by simp [ho])

/-! Claim theorems. -/

/-- C1: evaluation of the named sample-rate selectors at the master-clock
builder's construction value (`0b1000 << 9`).  The 12.288 MHz 48 kHz
selector does put code `0b000000` in payload bits 0-5, but the 12 MHz
(USB) 48 kHz selector puts `0b000100` there (not the documented
`0b000001`), and the 11.2896 MHz 44.1 kHz selector puts `0b000000` (not
`0b100000`): `SampleRate::bits` shifts the 6-bit code left by 2 before
masking it with the 6-bit mask at offset 0, so the USB/BOSR bits are always
cleared and the top two bits of the code are dropped. -/
theorem c1_sample_rate_code_eval :
    mclk12M288_adc48k_dac48k sampling_with_mclk &&& 0b111111 = 0b000000 ∧
    mclk12M_adc48k_dac48k sampling_with_mclk &&& 0b111111 = 0b000100 ∧
    mclk12M_adc48k_dac48k sampling_with_mclk &&& 0b111111 ≠ 0b000001 ∧
    mclk11M2896_adc44k1_dac44k1 sampling_with_mclk &&& 0b111111 = 0b000000 ∧
    mclk11M2896_adc44k1_dac44k1 sampling_with_mclk &&& 0b111111 ≠ 0b100000 := by
  decide

/-- C2, counterexample: it is not the case that, for every chain from the
raw constructor `sampling()`, `into_command` is reachable exactly when the
most recent mode/ratio/sample-rate write is a sample-rate write: the empty
chain reaches `into_command` (the constructor's tag is already `SrValid`)
although no sample-rate write has occurred. -/
theorem c2_counterexample :
    ¬ (∀ (ops : List SamplingOp) (s : SamplingState),
        runOps samplingInit ops = some s →
          (into_command_avail s = true ↔ (lastFieldW ops).any isSrW = true)) := by
  intro h
  have h2 := (h [] samplingInit rfl).mp rfl
  simp [lastFieldW, Option.any] at h2

/-- C2, amended: for every chain of operations from the raw constructor
`sampling()`, `into_command` is reachable iff the most recent mode
(USB/NORMAL), oversampling-ratio (BOSR) or sample-rate write — if any — is
a sample-rate write; with no such write the command is finalizable at once,
because the constructor's reset default already carries the `SrValid` tag. -/
theorem c2_finalize_reachability (ops : List SamplingOp) (s : SamplingState)
    (h : runOps samplingInit ops = some s) :
    into_command_avail s = (lastFieldW ops).elim true isSrW := by
  have h1 := runOps_srValid ops samplingInit s h
  have h2 := validAfter_foldl ops true (none : Option SamplingOp)
  simpa [into_command_avail, lastFieldW, samplingInit] using h1.trans h2

/-- Witness for C2: the chain `[bosr().set_bit(), sr().sr_0b1000()]` runs
from `sampling()` and its finalizability matches the amended criterion. -/
theorem c2_finalize_reachability_witness :
    into_command_avail
        (stepOp (stepOp samplingInit (.bosrW true)) (.srW 0b1000)) =
      (lastFieldW [SamplingOp.bosrW true, SamplingOp.srW 0b1000]).elim true isSrW :=
  c2_finalize_reachability [.bosrW true, .srW 0b1000] _ (by decide)

/-- C3: from any builder state whose sample-rate is set (`SrValid`), a mode
(USB/NORMAL) or oversampling-ratio (BOSR) write yields an `SrInvalid` state
on which `into_command` is not offered, and it stays unavailable along every
subsequent chain that contains no sample-rate write. -/
theorem c3_mode_bosr_invalidate (s : SamplingState) (op : SamplingOp)
    (hs : s.srValid = true) (hop : isFieldW op = true ∧ isSrW op = false)
    (ops : List SamplingOp) (s2 : SamplingState)
    (hrun : runOps (stepOp s op) ops = some s2)
    (hnosr : ∀ o ∈ ops, isSrW o = false) :
    into_command_avail (stepOp s op) = false ∧ into_command_avail s2 = false := by
  have hstep : (stepOp s op).srValid = false := by
    cases op with
    | usbNormalW b => cases b <;> rfl
    | bosrW b => cases b <;> rfl
    | srW code => exact absurd hop.2 (by simp [isSrW])
    | clkidiv2W b => exact absurd hop.1 (by simp [isFieldW])
    | clkodiv2W b => exact absurd hop.1 (by simp [isFieldW])
  refine ⟨hstep, ?_⟩
  have h1 := runOps_srValid ops (stepOp s op) s2 hrun
  rw [hstep] at h1
  rw [into_command_avail, h1]
  exact validAfter_false_of_no_sr ops hnosr

/-- Witness for C3: from `sampling()` (an `SrValid` state), writing BOSR
and then toggling a clock divider leaves `into_command` unavailable. -/
theorem c3_mode_bosr_invalidate_witness :
    samplingInit.srValid = true ∧
    (isFieldW (.bosrW true) = true ∧ isSrW (.bosrW true) = false) ∧
    runOps (stepOp samplingInit (.bosrW true)) [.clkidiv2W true] =
      some (stepOp (stepOp samplingInit (.bosrW true)) (.clkidiv2W true)) ∧
    (into_command_avail (stepOp samplingInit (.bosrW true)) = false ∧
      into_command_avail
        (stepOp (stepOp samplingInit (.bosrW true)) (.clkidiv2W true)) = false) :=
  ⟨rfl, ⟨rfl, rfl⟩, by decide,
    c3_mode_bosr_invalidate samplingInit (.bosrW true) rfl ⟨rfl, rfl⟩
      [.clkidiv2W true] _ (by decide) (by decide)⟩

/-- C4: for every register of the register-map table present in the source,
constructing the builder and converting it to a command/frame yields exactly
`(address << 9) | reset_payload` with the table's literal values. -/
theorem c4_register_reset_values :
    frame_to_u16 (into_command left_line_in) = 0x0 <<< 9 ||| 0b010010111 ∧
    frame_to_u16 (into_command right_line_in) = 0x1 <<< 9 ||| 0b010010111 ∧
    frame_to_u16 (into_command left_headphone_out) = 0x2 <<< 9 ||| 0b001111001 ∧
    frame_to_u16 (into_command right_headphone_out) = 0x3 <<< 9 ||| 0b001111001 ∧
    frame_to_u16 (into_command analogue_audio_path) = 0x4 <<< 9 ||| 0b001010 ∧
    frame_to_u16 (into_command digital_audio_path) = 0x5 <<< 9 ||| 0b1000 ∧
    frame_to_u16 (into_command power_down) = 0x6 <<< 9 ||| 0b10011111 ∧
    frame_to_u16 (into_command digital_audio_interface) = 0x7 <<< 9 ||| 0b00001010 ∧
    frame_to_u16 (into_command sampling_default) = 0x8 <<< 9 ||| 0 ∧
    frame_to_u16 (into_command active_control) = 0x9 <<< 9 ||| 0b0 ∧
    frame_to_u16 (into_command reset_data) = 0x6 <<< 9 ||| 0b10011111 := by
  decide

/-- C5: every bit-range field writer of length `L ≤ 8` at offset `S` with
`S + L ≤ 16` computes `(old & !(mask(L) << S)) | ((v & mask(L)) << S)` — a
total function that truncates wide inputs by masking instead of rejecting
them — leaves every bit outside the field unchanged, and in particular
writing `0b1111_1111` into the 5-bit volume field at offset 0 of the value
`0b10_1001_0111` yields `0b10_1001_1111` (the line-in regression test). -/
theorem c5_bits_field_write (l s d v : Nat) (hl : l ≤ 8) (hls : s + l ≤ 16)
    (hd : d < 65536) :
    bits l s d v = bits_spec l s d v ∧
    (∀ i, i < s ∨ s + l ≤ i → (bits l s d v).testBit i = d.testBit i) ∧
    bits 5 0 right_line_in 0b11111111 = 0b1010011111 := by
  refine ⟨?_, ?_, by decide⟩
  · apply Nat.eq_of_testBit_eq
    intro i
    rw [Bool.eq_iff_iff, testBit_bits, testBit_bits_spec l s d v i hls]
    constructor
    · rintro (h | ⟨h1, h2, _, _, h5⟩)
      · exact Or.inl h
      · exact Or.inr ⟨h1, h2, h5⟩
    · rintro (h | ⟨h1, h2, h3⟩)
      · exact Or.inl h
      · exact Or.inr ⟨h1, h2, by omega, by omega, h3⟩
  · intro i hi
    rw [Bool.eq_iff_iff, testBit_bits]
    constructor
    · rintro (⟨h1, _, _⟩ | ⟨h1, h2, _⟩)
      · exact h1
      · omega
    · intro hdb
      rcases Nat.lt_or_ge i 16 with h16 | h16
      · exact Or.inl ⟨hdb, h16, by omega⟩
      · rw [testBit_high_false hd h16] at hdb
        simp at hdb

/-- Witness for C5 at the line-in regression instance: the 5-bit volume
field at offset 0 of the right-line-in default, written with `0b1111_1111`. -/
theorem c5_bits_field_write_witness :
    (5:Nat) ≤ 8 ∧ (0:Nat) + 5 ≤ 16 ∧ right_line_in < 65536 ∧
    (bits 5 0 right_line_in 0b11111111 = bits_spec 5 0 right_line_in 0b11111111 ∧
     (∀ i, i < 0 ∨ 0 + 5 ≤ i →
        (bits 5 0 right_line_in 0b11111111).testBit i = right_line_in.testBit i) ∧
     bits 5 0 right_line_in 0b11111111 = 0b1010011111) :=
  ⟨by decide, by decide, by decide,
    c5_bits_field_write 5 0 right_line_in 0b11111111 (by decide) (by decide) (by decide)⟩

/-- C6, counterexample: the claim that the `Sr` writer offers exactly 10
distinct safe codes in Normal mode (together with 6 for USB/BOSR-clear and
5 for USB/BOSR-set) is false: the Normal-mode list has 11 distinct codes. -/
theorem c6_counterexample :
    ¬ (sr_codes_normal.Nodup ∧ sr_codes_normal.length = 10 ∧
       sr_codes_usb_bosr_clear.Nodup ∧ sr_codes_usb_bosr_clear.length = 6 ∧
       sr_codes_usb_bosr_set.Nodup ∧ sr_codes_usb_bosr_set.length = 5) := by
  decide

/-- C6, amended: the `Sr` field writer offers exactly 11 distinct safe
4-bit codes in Normal mode, 6 in USB mode with BOSR clear, and 5 in USB
mode with BOSR set. -/
theorem c6_sr_code_counts :
    sr_codes_normal.Nodup ∧ sr_codes_normal.length = 11 ∧
    sr_codes_usb_bosr_clear.Nodup ∧ sr_codes_usb_bosr_clear.length = 6 ∧
    sr_codes_usb_bosr_set.Nodup ∧ sr_codes_usb_bosr_set.length = 5 := by
  decide

/-- C7: for every 16-bit builder value, every field-writer operation of the
library — toggle/bit writers at positions 0-8, bit-range writers with the
field inside the 9 payload bits, the virtual sample-rate writer, the unsafe
raw `Sr::bits` writer, the dB convenience writers and the active/inactive
writers — leaves the top 7 bits (the register address, bits 15-9)
unchanged. -/
theorem c7_address_bits_preserved (d v raw p l s : Nat) (b : Bool) (hd : d < 65536) :
    (p ≤ 8 → bit p d b >>> 9 = d >>> 9 ∧ set_bit p d >>> 9 = d >>> 9 ∧
      clear_bit p d >>> 9 = d >>> 9) ∧
    (s + l ≤ 9 → bits l s d v >>> 9 = d >>> 9) ∧
    srBits d v >>> 9 = d >>> 9 ∧
    sampleRateBits d v >>> 9 = d >>> 9 ∧
    hpvol_db d raw >>> 9 = d >>> 9 ∧
    sideatt_db d raw >>> 9 = d >>> 9 ∧
    active_op d >>> 9 = d >>> 9 ∧
    inactive_op d >>> 9 = d >>> 9 := by
  refine ⟨?_, ?_, ?_, ?_, ?_, ?_, ?_, ?_⟩
  · intro hp
    exact ⟨shiftRight9_congr (bit_testBit_high p d b hd hp),
      shiftRight9_congr (set_bit_testBit_high p d hp),
      shiftRight9_congr (clear_bit_testBit_high p d hd hp)⟩
  · intro hls
    exact shiftRight9_congr (bits_testBit_high l s d v hd hls)
  · exact shiftRight9_congr (bits_testBit_high 4 2 d v hd (by omega))
  · exact shiftRight9_congr (sampleRateBits_testBit_high d v hd)
  · exact shiftRight9_congr (hpvol_db_testBit_high d raw hd)
  · exact shiftRight9_congr (sideatt_db_testBit_high d raw hd)
  · exact shiftRight9_congr (active_op_testBit_high d)
  · exact shiftRight9_congr (inactive_op_testBit_high d hd)

/-- Witness for C7 at the left-headphone-out default, with the zero-cross
toggle position 7 and the side-tone-attenuation field (2 bits at offset 6). -/
theorem c7_address_bits_preserved_witness :
    left_headphone_out < 65536 ∧
    (((7:Nat) ≤ 8 → bit 7 left_headphone_out true >>> 9 = left_headphone_out >>> 9 ∧
        set_bit 7 left_headphone_out >>> 9 = left_headphone_out >>> 9 ∧
        clear_bit 7 left_headphone_out >>> 9 = left_headphone_out >>> 9) ∧
     ((6:Nat) + 2 ≤ 9 → bits 2 6 left_headphone_out 3 >>> 9 = left_headphone_out >>> 9) ∧
     srBits left_headphone_out 3 >>> 9 = left_headphone_out >>> 9 ∧
     sampleRateBits left_headphone_out 3 >>> 9 = left_headphone_out >>> 9 ∧
     hpvol_db left_headphone_out 121 >>> 9 = left_headphone_out >>> 9 ∧
     sideatt_db left_headphone_out 121 >>> 9 = left_headphone_out >>> 9 ∧
     active_op left_headphone_out >>> 9 = left_headphone_out >>> 9 ∧
     inactive_op left_headphone_out >>> 9 = left_headphone_out >>> 9) :=
  ⟨by decide, c7_address_bits_preserved left_headphone_out 3 121 7 2 6 true (by decide)⟩

/-- C8: the right and left channel defaults of line-in and headphone-out
differ exactly in bit 9 (the lowest address bit), never in the payload. -/
theorem c8_left_right_defaults_xor :
    right_line_in ^^^ left_line_in = 1 <<< 9 ∧
    right_headphone_out ^^^ left_headphone_out = 1 <<< 9 := by
  decide

/-- C9: the two snapshots of the `Dacsel` writer operate on different bits
(offset 2 in `src/analogue_audio_path.rs`, offset 4 in
`src/command/analogue_audio_path.rs`), so they are not extensionally equal:
on the register's reset value they produce different 16-bit results. -/
theorem c9_dacsel_offsets_differ :
    dacsel_select_v1 analogue_audio_path ≠ dacsel_select_v2 analogue_audio_path ∧
    (dacsel_select_v1 0).testBit 2 = true ∧
    (dacsel_select_v1 0).testBit 4 = false ∧
    (dacsel_select_v2 0).testBit 4 = true ∧
    (dacsel_select_v2 0).testBit 2 = false := by
  decide

/-- C10: every command built from a 7-bit address and 9-bit payload packs
into one 16-bit frame carrying the address in bits 15-9 and the payload in
bits 8-0; converting the frame for a byte transport yields exactly the two
big-endian (MSB-first) bytes of that value, and converting it for a word
transport yields exactly the single 16-bit word. -/
theorem c10_frame_layout (addr payload : Nat) (ha : addr < 128) (hp : payload < 512) :
    command_data addr payload < 65536 ∧
    command_data addr payload >>> 9 = addr ∧
    command_data addr payload % 512 = payload ∧
    frame_to_be_bytes (into_command (command_data addr payload)) =
      [command_data addr payload / 256, command_data addr payload % 256] ∧
    (frame_to_be_bytes (into_command (command_data addr payload))).foldl
      (fun acc byte => 256 * acc + byte) 0 = command_data addr payload ∧
    frame_to_words (into_command (command_data addr payload)) =
      [frame_to_u16 (command_data addr payload)] ∧
    frame_to_u16 (into_command (command_data addr payload)) = command_data addr payload := by
  have h := command_data_eq addr payload hp
  have h9 : command_data addr payload >>> 9 = command_data addr payload / 512 := by
    rw [Nat.shiftRight_eq_div_pow]
  have h8 : command_data addr payload >>> 8 = command_data addr payload / 256 := by
    rw [Nat.shiftRight_eq_div_pow]
  refine ⟨by omega, ?_, by omega, ?_, ?_, rfl, rfl⟩
  · rw [h9]
    omega
  · rw [into_command, frame_to_be_bytes, h8]
    have hm : command_data addr payload / 256 % 256 = command_data addr payload / 256 := by
      omega
    rw [hm]
  · rw [into_command, frame_to_be_bytes, h8]
    simp only [List.foldl_cons, List.foldl_nil]
    omega

/-- Witness for C10 at the right-headphone-out register (address `0x3`,
reset payload `0b0_0111_1001`). -/
theorem c10_frame_layout_witness :
    (0x3:Nat) < 128 ∧ (0b001111001:Nat) < 512 ∧
    (command_data 0x3 0b001111001 < 65536 ∧
     command_data 0x3 0b001111001 >>> 9 = 0x3 ∧
     command_data 0x3 0b001111001 % 512 = 0b001111001 ∧
     frame_to_be_bytes (into_command (command_data 0x3 0b001111001)) =
       [command_data 0x3 0b001111001 / 256, command_data 0x3 0b001111001 % 256] ∧
     (frame_to_be_bytes (into_command (command_data 0x3 0b001111001))).foldl
       (fun acc byte => 256 * acc + byte) 0 = command_data 0x3 0b001111001 ∧
     frame_to_words (into_command (command_data 0x3 0b001111001)) =
       [frame_to_u16 (command_data 0x3 0b001111001)] ∧
     frame_to_u16 (into_command (command_data 0x3 0b001111001)) =
       command_data 0x3 0b001111001) :=
  ⟨by decide, by decide, c10_frame_layout 0x3 0b001111001 (by decide) (by decide)⟩

end Wm8731
